import Mathlib

/-!
Verification of the sign-to-vox generation pipeline
(`src/ai/flows/sign-to-vox-flow.ts`).

The TypeScript source is shallowly embedded as executable Lean
definitions.  Modeling conventions, each marked at its definition:

* JavaScript numbers that the flow only ever uses at integer values are
  modeled as `Int`.  The schema constrains almost all numeric fields to
  integers; `hangingWidth` is documented as one of 48/64/80.
* The half-pixel floating-point distance tests
  `(x - cx + 0.5)^2 + (y - cy + 0.5)^2 ⋈ r^2` compare half-integers with
  integers, so multiplying through by 4 turns them into the exact integer
  tests `(2*(x - cx) + 1)^2 + (2*(y - cy) + 1)^2 ⋈ 4*r^2`; this scaling is
  used everywhere below and is exact (no rounding is lost).
* The source keys its voxel map by the string `"x,y,z"` after `|0`
  truncation; every coordinate the flow produces is already an integer, so
  the key is modeled as the integer triple itself (32-bit wraparound of
  `|0` is the identity on the ranges involved).
* `writeVox` (the npm `vox-saver` library) is an external serializer; the
  flow's output carries the `voxObject` handed to it, which determines the
  emitted bytes.
* `rasterizePixelText` lives outside this repository's core (spec §1 lists
  it as an out-of-scope collaborator producing `{lines, totalHeight}`); the
  pipeline is therefore parametrized by an arbitrary rasterizer function.
-/

namespace Chisel

/-- `signType` discriminant of the input schema. -/
inductive SignType where
  | standard
  | hanging
deriving DecidableEq

/-- `hangingIconPosition` enum of the input schema. -/
inductive IconPosition where
  | left
  | right
deriving DecidableEq

/-- `PixelDataSchema`: a boolean occupancy bitmap with dimensions and an
optional vertical offset (the offset is never read by the flow: the spread
in `contentItems.push` overrides it). -/
structure PixelData where
  pixels : List Bool
  width : Int
  height : Int
  offsetY : Option Int
deriving DecidableEq

/-- `SignToVoxInputSchema`: the validated input record of the flow. -/
structure SignToVoxInput where
  signType : SignType
  width : Int
  height : Int
  frame : Bool
  frameWidth : Int
  hangingWidth : Int
  hangingIconPosition : IconPosition
  hangingSignThickness : Int
  hangingSignIconOffsetX : Int
  hangingSignTextOffsetX : Int
  icon : Option PixelData
  text : String
  signIconScale : Int
  signIconOffsetY : Int
  textOffsetY : Int
  signWithIcon : Bool
deriving DecidableEq

/-- The schema's range constraints (`min(16)` on width/height, `min(1)` on
`frameWidth` and `hangingSignThickness`); an input that passed
`SignToVoxInputSchema.parse` satisfies them. -/
def ValidInput (p : SignToVoxInput) : Prop :=
  16 ≤ p.width ∧ 16 ≤ p.height ∧ 1 ≤ p.frameWidth ∧ 1 ≤ p.hangingSignThickness

/-- One line produced by the external text rasterizer. -/
structure RasterLine where
  width : Int
  height : Int
  pixels : List Bool
deriving DecidableEq

/-- The value returned by `rasterizePixelText`. -/
structure RasterResult where
  lines : List RasterLine
  totalHeight : Int
deriving DecidableEq

/-- The external `rasterizePixelText`, as a black-box function of the
uppercased text and the `maxWidth` bound. -/
abbrev Rasterizer := String → Int → RasterResult

/-- A voxel coordinate triple. -/
abbrev Coord := Int × Int × Int

/-- The flow's `voxelMap`: a JS `Map` keyed by coordinate.  JS `Map`
iterates in insertion order and `set` on an existing key keeps its
position, so the map is modeled as the insertion-ordered association
list. -/
abbrev VoxelMap := List (Coord × Nat)

/-- Whether the map already holds an entry at coordinate `c`. -/
def hasKey (m : VoxelMap) (c : Coord) : Bool :=
  m.any (fun e => decide (e.1 = c))

/-- `addVoxel(px, py, pz, colorIndex)`: overwrite if a voxel already exists
at this position (keeping its insertion position, as JS `Map.set` does),
otherwise append a fresh entry. -/
def addVoxel (m : VoxelMap) (c : Coord) (colorIndex : Nat) : VoxelMap :=
  if hasKey m c then m.map (fun e => if e.1 = c then (c, colorIndex) else e)
  else m ++ [(c, colorIndex)]

/-- `voxelMap.get`: the palette index stored at `c`, if any. -/
def lookupVox : VoxelMap → Coord → Option Nat
  | [], _ => none
  | e :: rest, c => if e.1 = c then some e.2 else lookupVox rest c

/-- `for (let k = 0; k < n; k++) ...` acting on state `b`; a nonpositive
bound runs zero iterations. -/
def forRange {β : Type} (n : Int) (f : β → Int → β) (b : β) : β :=
  (List.range n.toNat).foldl (fun b (k : Nat) => f b (k : Int)) b

/-- `checkCorner(cx, cy, radius)` from the frame generator:
`Math.abs(x-cx) < radius && Math.abs(y-cy) < radius
 && (x-cx+0.5)**2 + (y-cy+0.5)**2 > radius**2`,
with the half-integer circle test scaled by 4 into exact integers. -/
def checkCorner (x y cx cy radius : Int) : Bool :=
  decide (|x - cx| < radius ∧ |y - cy| < radius ∧
    4 * radius ^ 2 < (2 * (x - cx) + 1) ^ 2 + (2 * (y - cy) + 1) ^ 2)

/-- The frame loop body for one cell: the two edge `if`s each set the flag,
then each of the four `checkCorner` tests clears it. -/
def isFrameCell (w h f x y : Int) : Bool :=
  let cornerRadius := f * 2
  let isFrame := decide (y < f) || decide (y ≥ h - f) ||
                 decide (x < f) || decide (x ≥ w - f)
  let isFrame := if checkCorner x y cornerRadius cornerRadius cornerRadius then false else isFrame
  let isFrame := if checkCorner x y (w - 1 - cornerRadius) cornerRadius cornerRadius then false else isFrame
  let isFrame := if checkCorner x y cornerRadius (h - 1 - cornerRadius) cornerRadius then false else isFrame
  let isFrame := if checkCorner x y (w - 1 - cornerRadius) (h - 1 - cornerRadius) cornerRadius then false else isFrame
  isFrame

/-- The standard-sign frame pass: `for y in [0,h) for x in [0,w)`, writing
palette index 2 at depth plane 15 whenever `isFrameCell` holds. -/
def frameStage (w h f : Int) (m : VoxelMap) : VoxelMap :=
  forRange h (fun m y =>
    forRange w (fun m x =>
      if isFrameCell w h f x y then addVoxel m (x, y, 15) 2 else m) m) m

/-- The hanging-sign `isInside` rounded-rectangle test with
`cornerRadius = 4`: the two non-corner bands, or one of the four corner
circles (half-integer circle tests scaled by 4 into exact integers). -/
def isInside (w h x y : Int) : Bool :=
  let c : Int := 4
  decide ((c ≤ x ∧ x < w - c) ∨ (c ≤ y ∧ y < h - c) ∨
    (2 * x + 1 - 2 * c) ^ 2 + (2 * y + 1 - 2 * c) ^ 2 ≤ 4 * c ^ 2 ∨
    (2 * x + 1 - 2 * (w - c)) ^ 2 + (2 * y + 1 - 2 * c) ^ 2 ≤ 4 * c ^ 2 ∨
    (2 * x + 1 - 2 * c) ^ 2 + (2 * y + 1 - 2 * (h - c)) ^ 2 ≤ 4 * c ^ 2 ∨
    (2 * x + 1 - 2 * (w - c)) ^ 2 + (2 * y + 1 - 2 * (h - c)) ^ 2 ≤ 4 * c ^ 2)

/-- The hanging-sign backplate pass: `thickness` slices starting at
`zStart = 16`, each the `isInside` cross-section, palette index 1. -/
def backplateStage (w h t : Int) (m : VoxelMap) : VoxelMap :=
  let zStart : Int := 16
  forRange t (fun m z =>
    forRange h (fun m y =>
      forRange w (fun m x =>
        if isInside w h x y then addVoxel m (x, y, zStart + z) 1 else m) m) m) m

/-- `signWidth`: `hangingWidth` for a hanging sign, else `width`. -/
def signWidth (p : SignToVoxInput) : Int :=
  if p.signType = SignType.hanging then p.hangingWidth else p.width

/-- `signHeight`: the constant 16 for a hanging sign, else `height`. -/
def signHeight (p : SignToVoxInput) : Int :=
  if p.signType = SignType.hanging then 16 else p.height

/-- `modelDepth = 32`. -/
def modelDepth : Int := 32

/-- The background/frame generation branch of the flow. -/
def shapeStage (p : SignToVoxInput) : VoxelMap :=
  if p.signType = SignType.standard ∧ p.frame = true then
    frameStage (signWidth p) (signHeight p) p.frameWidth []
  else if p.signType = SignType.hanging then
    backplateStage (signWidth p) (signHeight p) p.hangingSignThickness []
  else []

/-- `hasIcon = params.icon && params.icon.pixels.length > 0 && params.signWithIcon`. -/
def hasIcon (p : SignToVoxInput) : Bool :=
  (match p.icon with
   | some ic => decide (0 < ic.pixels.length)
   | none => false) && p.signWithIcon

/-- Interior padding: `frameWidth` for a framed standard sign, 2 for a
hanging sign, 0 otherwise. -/
def pad (p : SignToVoxInput) : Int :=
  if p.signType = SignType.standard ∧ p.frame = true then p.frameWidth
  else if p.signType = SignType.hanging then 2 else 0

/-- `availableWidth = signWidth - pad * 2`. -/
def availableWidth (p : SignToVoxInput) : Int := signWidth p - pad p * 2

/-- `availableHeight = signHeight - pad * 2`. -/
def availableHeight (p : SignToVoxInput) : Int := signHeight p - pad p * 2

/-- Reading `pixels[idx]`: a missing (out-of-range) JS element is
`undefined`, which the `if` treats as false. -/
def getPix (l : List Bool) (idx : Int) : Bool :=
  if idx < 0 then false else l.getD idx.toNat false

/-- JS assignment `pixels[idx] = true`: in range it sets the element;
past the end it extends the array, the intermediate holes reading back as
false; a negative index stores a non-element property the pipeline never
reads back. -/
def setPix (l : List Bool) (idx : Int) : List Bool :=
  if idx < 0 then l
  else if idx.toNat < l.length then l.set idx.toNat true
  else l ++ List.replicate (idx.toNat - l.length) false ++ [true]

/-- The text-combining loop: stack the rasterized lines into one
`availableWidth × totalHeight` bitmap, each line horizontally centered,
with one blank row between lines (`currentY += line.height + 1`). -/
def combineLines (availableWidth : Int) (rr : RasterResult) : List Bool :=
  let init := List.replicate (availableWidth * rr.totalHeight).toNat false
  (rr.lines.foldl (fun (acc : List Bool × Int) line =>
    let xOffset := Int.fdiv (availableWidth - line.width) 2
    let px := forRange line.height (fun px y =>
      forRange line.width (fun px x =>
        if getPix line.pixels (y * line.width + x) then
          setPix px ((acc.2 + y) * availableWidth + (xOffset + x))
        else px) px) acc.1
    (px, acc.2 + line.height + 1)) (init, (0 : Int))).1

/-- Tag distinguishing the two kinds of content items. -/
inductive ItemType where
  | icon
  | text
deriving DecidableEq

/-- One entry of the flow's `contentItems` array. -/
structure ContentItem where
  type : ItemType
  width : Int
  height : Int
  pixels : List Bool
  offsetX : Int
  offsetY : Int
deriving DecidableEq

/-- The `contentItems.push` for the icon (empty list when `hasIcon` is
false; the `none` branch under a true `hasIcon` is unreachable). -/
def iconItemList (p : SignToVoxInput) : List ContentItem :=
  if hasIcon p then
    match p.icon with
    | some ic =>
        [{ type := ItemType.icon
           width := ic.width
           height := ic.height
           pixels := ic.pixels
           offsetX := if p.signType = SignType.hanging then p.hangingSignIconOffsetX else 0
           offsetY := if p.signType = SignType.standard then p.signIconOffsetY else 0 }]
    | none => []
  else []

/-- The guard `params.text && params.text.trim().length > 0`. -/
def textPresent (p : SignToVoxInput) : Prop :=
  p.text ≠ "" ∧ 0 < p.text.trim.length

instance (p : SignToVoxInput) : Decidable (textPresent p) := by
  unfold textPresent; infer_instance

/-- The `contentItems.push` for the text block: rasterize the uppercased
text bounded to `availableWidth`, combine the lines, and record the item
with width `availableWidth` and height `totalHeight`. -/
def textItemList (p : SignToVoxInput) (rz : Rasterizer) : List ContentItem :=
  if textPresent p then
    let rr := rz p.text.toUpper (availableWidth p)
    [{ type := ItemType.text
       width := availableWidth p
       height := rr.totalHeight
       pixels := combineLines (availableWidth p) rr
       offsetX := if p.signType = SignType.hanging then p.hangingSignTextOffsetX else 0
       offsetY := if p.signType = SignType.standard then p.textOffsetY else 0 }]
  else []

/-- The assembled `contentItems`: icon then text, reversed for a hanging
sign with icon position `right`. -/
def contentItems (p : SignToVoxInput) (rz : Rasterizer) : List ContentItem :=
  let items := iconItemList p ++ textItemList p rz
  if p.signType = SignType.hanging ∧ p.hangingIconPosition = IconPosition.right then
    items.reverse
  else items

/-- `spacing = 4`, the fixed inter-item spacing. -/
def spacing : Int := 4

/-- `params.icon!.width` as read in the width correction (only evaluated
under `hasIcon`, where the icon is present). -/
def iconWidthOf (p : SignToVoxInput) : Int :=
  match p.icon with
  | some ic => ic.width
  | none => 0

/-- The per-item `itemWidth` of the reduce and of the cursor advance: the
bitmap width, except a hanging sign's text item with an icon present,
which is reduced by the icon width and the spacing. -/
def effectiveWidth (p : SignToVoxInput) (item : ContentItem) : Int :=
  if item.type = ItemType.text then
    if hasIcon p = true ∧ p.signType = SignType.hanging then
      item.width - iconWidthOf p - spacing
    else item.width
  else item.width

/-- `totalContentWidth`: the reduce over `contentItems` plus the trailing
`(contentItems.length > 1 ? spacing : 0)`. -/
def totalContentWidth (p : SignToVoxInput) (items : List ContentItem) : Int :=
  items.foldl (fun sum item => sum + effectiveWidth p item) 0 +
    (if 1 < items.length then spacing else 0)

/-- `currentX`'s initial value: `pad + Math.floor((availableWidth - totalContentWidth) / 2)`. -/
def startX (p : SignToVoxInput) (items : List ContentItem) : Int :=
  pad p + Int.fdiv (availableWidth p - totalContentWidth p items) 2

/-- Painting one content item at cursor `currentX`: every occupied bitmap
pixel becomes a voxel on plane 15, vertically flipped, with palette
index 2 (standard) or 3 (hanging). -/
def paintItem (p : SignToVoxInput) (m : VoxelMap) (item : ContentItem) (currentX : Int) : VoxelMap :=
  let itemBaseY := pad p + Int.fdiv (availableHeight p - item.height) 2
  let finalItemY := itemBaseY + item.offsetY
  let colorIndex : Nat := if p.signType = SignType.standard then 2 else 3
  let finalItemX := currentX + item.offsetX
  forRange item.height (fun m y =>
    forRange item.width (fun m x =>
      if getPix item.pixels (y * item.width + x) then
        addVoxel m (x + finalItemX, signHeight p - 1 - (y + finalItemY), 15) colorIndex
      else m) m) m

/-- The content placement loop: paint each item, then advance the cursor by
its effective width plus the spacing; returns the updated map and the final
cursor. -/
def placeItems (p : SignToVoxInput) (items : List ContentItem) (x0 : Int) (m : VoxelMap) :
    VoxelMap × Int :=
  items.foldl (fun acc item =>
    (paintItem p acc.1 item acc.2, acc.2 + effectiveWidth p item + spacing)) (m, x0)

/-- The voxel map after the shape pass and the content pass, before the
anchor write. -/
def gridAfterContent (p : SignToVoxInput) (rz : Rasterizer) : VoxelMap :=
  (placeItems p (contentItems p rz) (startX p (contentItems p rz)) (shapeStage p)).1

/-- The final grid: the anchor write `addVoxel(0, 0, 0, 2)` is the last
operation on the map. -/
def finalGrid (p : SignToVoxInput) (rz : Rasterizer) : VoxelMap :=
  addVoxel (gridAfterContent p rz) (0, 0, 0) 2

/-- One record of the XYZI enumeration. -/
structure XyziValue where
  x : Int
  y : Int
  z : Int
  i : Nat
deriving DecidableEq

/-- `xyziValues`: the grid entries in map iteration (= insertion) order. -/
def xyziValues (p : SignToVoxInput) (rz : Rasterizer) : List XyziValue :=
  (finalGrid p rz).map (fun e => ⟨e.1.1, e.1.2.1, e.1.2.2, e.2⟩)

/-- One RGBA palette entry. -/
structure PaletteColor where
  r : Int
  g : Int
  b : Int
  a : Int
deriving DecidableEq

/-- The constant 256-entry palette: slot 0 transparent, slot 1 the hanging
backplate color, slot 2 the anchor / standard frame-and-content color,
slot 3 the hanging content color. -/
def palette : List PaletteColor :=
  (((((List.replicate 256 (⟨0, 0, 0, 0⟩ : PaletteColor)).set 0 ⟨0, 0, 0, 0⟩).set 1
      ⟨10, 10, 10, 255⟩).set 2 ⟨200, 164, 100, 255⟩).set 3 ⟨220, 220, 220, 255⟩)

/-- The container-axis SIZE triple. -/
structure VoxSize where
  x : Int
  y : Int
  z : Int
deriving DecidableEq

/-- The XYZI chunk content: the voxel count and the per-voxel records. -/
structure VoxXyzi where
  numVoxels : Nat
  values : List XyziValue
deriving DecidableEq

/-- The object handed to the external `writeVox` serializer. -/
structure VoxObject where
  size : VoxSize
  xyzi : VoxXyzi
  rgba : List PaletteColor
deriving DecidableEq

/-- `voxSize = {x: modelWidth, y: modelDepth, z: modelHeight}`. -/
def voxSizeOf (p : SignToVoxInput) : VoxSize :=
  ⟨signWidth p, modelDepth, signHeight p⟩

/-- The assembled `voxObject`: the permuted SIZE triple, the XYZI records
with the y and z components exchanged per entry, and the palette. -/
def voxObject (p : SignToVoxInput) (rz : Rasterizer) : VoxObject :=
  { size := voxSizeOf p
    xyzi :=
      { numVoxels := (xyziValues p rz).length
        values := (xyziValues p rz).map (fun v => ⟨v.x, v.z, v.y, v.i⟩) }
    rgba := palette }

/-- `createSchematicData`: the human-readable label (a zero depth is falsy
in the source and omitted). -/
def createSchematicData (name : String) (width height : Int) (depth : Option Int) : String :=
  let depthInfo := match depth with
    | some d => if d = 0 then "" else "x" ++ toString d
    | none => ""
  "Schematic: " ++ name ++ " (" ++ toString width ++ "x" ++ toString height ++ depthInfo ++ ")"

/-- The flow's return value.  The source's `voxData` field is the base64
encoding of `writeVox(voxObject)`; `writeVox` is an external pure
serializer, so the field is modeled by the `voxObject` that determines
it. -/
structure SignToVoxOutput where
  schematicData : String
  width : Int
  height : Int
  depth : Int
  isVox : Bool
  voxData : VoxObject
  voxSize : VoxSize
  totalVoxels : Int
deriving DecidableEq

/-- `generateSignToVoxFlow`: the whole pipeline, from the validated input
and the external rasterizer to the output record. -/
def generateSignToVoxFlow (p : SignToVoxInput) (rz : Rasterizer) : SignToVoxOutput :=
  { schematicData := createSchematicData "VOX Sign" (signWidth p) (signHeight p) (some modelDepth)
    width := signWidth p
    height := signHeight p
    depth := modelDepth
    isVox := true
    voxData := voxObject p rz
    voxSize := voxSizeOf p
    totalVoxels := ((xyziValues p rz).length : Int) - 1 }

/-! ### Proof infrastructure: list views of the write loops -/

/-- Replay a list of `(coordinate, index)` writes through `addVoxel`. -/
def writeAll (m : VoxelMap) (l : List (Coord × Nat)) : VoxelMap :=
  l.foldl (fun m e => addVoxel m e.1 e.2) m

/-- The writes the frame pass performs, in loop order. -/
def frameList (w h f : Int) : List (Coord × Nat) :=
  (List.range h.toNat).flatMap (fun (y : Nat) =>
    (List.range w.toNat).filterMap (fun (x : Nat) =>
      if isFrameCell w h f (x : Int) (y : Int) then
        some (((x : Int), (y : Int), (15 : Int)), 2)
      else none))

/-- The writes the backplate pass performs, in loop order. -/
def backplateList (w h t : Int) : List (Coord × Nat) :=
  (List.range t.toNat).flatMap (fun (z : Nat) =>
    (List.range h.toNat).flatMap (fun (y : Nat) =>
      (List.range w.toNat).filterMap (fun (x : Nat) =>
        if isInside w h (x : Int) (y : Int) then
          some (((x : Int), (y : Int), 16 + (z : Int)), 1)
        else none)))

/-- The coordinates stored in the map are pairwise distinct. -/
def NodupKeys (m : VoxelMap) : Prop := (m.map Prod.fst).Nodup

/-- The frame pass's combined edge condition (the two `if`s of the source
that set the flag). -/
def edgeCell (w h f x y : Int) : Bool :=
  decide (y < f) || decide (y ≥ h - f) || decide (x < f) || decide (x ≥ w - f)

/-- The carve condition the code applies: any of the four `checkCorner`
tests (each a side-`2*r` square around that corner's rounding center
together with the outside-the-circle test). -/
def codeCornerCutout (w h r x y : Int) : Bool :=
  checkCorner x y r r r || checkCorner x y (w - 1 - r) r r ||
  checkCorner x y r (h - 1 - r) r || checkCorner x y (w - 1 - r) (h - 1 - r) r

/-- The corner-cutout predicate as the specification words it: the cell
lies inside a corner's bounding square of side `cornerRadius` (the `r × r`
block of cells at that corner of the `w × h` plane) and the Euclidean
distance from the cell's center to that corner's rounding center (the
centers the code uses) exceeds `cornerRadius`; the half-integer distance
test is scaled by 4 into exact integers. -/
def specCornerCutout (w h r x y : Int) : Prop :=
  (0 ≤ x ∧ x < r ∧ 0 ≤ y ∧ y < r ∧
    4 * r ^ 2 < (2 * (x - r) + 1) ^ 2 + (2 * (y - r) + 1) ^ 2) ∨
  (w - r ≤ x ∧ x < w ∧ 0 ≤ y ∧ y < r ∧
    4 * r ^ 2 < (2 * (x - (w - 1 - r)) + 1) ^ 2 + (2 * (y - r) + 1) ^ 2) ∨
  (0 ≤ x ∧ x < r ∧ h - r ≤ y ∧ y < h ∧
    4 * r ^ 2 < (2 * (x - r) + 1) ^ 2 + (2 * (y - (h - 1 - r)) + 1) ^ 2) ∨
  (w - r ≤ x ∧ x < w ∧ h - r ≤ y ∧ y < h ∧
    4 * r ^ 2 < (2 * (x - (w - 1 - r)) + 1) ^ 2 + (2 * (y - (h - 1 - r)) + 1) ^ 2)

instance (w h r x y : Int) : Decidable (specCornerCutout w h r x y) := by
  unfold specCornerCutout
  infer_instance

/-! ### Concrete inputs used by the witness theorems -/

/-- A rasterizer returning no lines (the black box may do anything; this is
one concrete possibility). -/
def rz0 : Rasterizer := fun _ _ => ⟨[], 0⟩

/-- A minimal framed standard-sign input (16×16, frame width 2, no
content). -/
def stdInput : SignToVoxInput :=
  { signType := SignType.standard
    width := 16
    height := 16
    frame := true
    frameWidth := 2
    hangingWidth := 48
    hangingIconPosition := IconPosition.left
    hangingSignThickness := 1
    hangingSignIconOffsetX := 0
    hangingSignTextOffsetX := 0
    icon := none
    text := ""
    signIconScale := 100
    signIconOffsetY := 0
    textOffsetY := 0
    signWithIcon := false }

/-- A minimal hanging-sign input (width 48, thickness 1, no content). -/
def hangInput : SignToVoxInput :=
  { stdInput with signType := SignType.hanging, frame := false }

/-- A standard-sign input carrying a one-pixel icon and no text. -/
def iconInput : SignToVoxInput :=
  { stdInput with frame := false
                  icon := some ⟨[true], 1, 1, none⟩
                  signWithIcon := true }

/-! ### Lemmas about the voxel map -/

theorem lookupVox_map_update_self (m : VoxelMap) (c : Coord) (i : Nat)
    (hk : hasKey m c = true) :
    lookupVox (m.map (fun e => if e.1 = c then (c, i) else e)) c = some i := by
  induction m with
  | nil => simp [hasKey] at hk
  | cons e t ih =>
    by_cases he : e.1 = c
    · simp [lookupVox, he]
    · have hk' : hasKey t c = true := by
        simpa [hasKey, List.any_cons, he] using hk
      simpa [lookupVox, he] using ih hk'

theorem lookupVox_map_update_ne (m : VoxelMap) (c d : Coord) (i : Nat)
    (hne : d ≠ c) :
    lookupVox (m.map (fun e => if e.1 = c then (c, i) else e)) d = lookupVox m d := by
  induction m with
  | nil => rfl
  | cons e t ih =>
    have hcd : ¬(c = d) := fun h => hne h.symm
    by_cases he : e.1 = c
    · have hed : ¬(e.1 = d) := fun h => hcd (he ▸ h)
      simp [lookupVox, he, hcd, hed, ih]
    · simp [lookupVox, he, ih]

theorem lookupVox_append_self (m : VoxelMap) (c : Coord) (i : Nat)
    (hk : hasKey m c = false) :
    lookupVox (m ++ [(c, i)]) c = some i := by
  induction m with
  | nil => simp [lookupVox]
  | cons e t ih =>
    have he : ¬(e.1 = c) := by
      intro h
      simp [hasKey, List.any_cons, h] at hk
    have hk' : hasKey t c = false := by
      simp [hasKey, List.any_cons] at hk
      simpa [hasKey] using hk.2
    simpa [lookupVox, he] using ih hk'

theorem lookupVox_append_ne (m : VoxelMap) (c d : Coord) (i : Nat)
    (hne : d ≠ c) :
    lookupVox (m ++ [(c, i)]) d = lookupVox m d := by
  have hcd : ¬(c = d) := fun h => hne h.symm
  induction m with
  | nil => simp [lookupVox, hcd]
  | cons e t ih => by_cases he : e.1 = d <;> simp [lookupVox, he, ih]

theorem lookupVox_addVoxel_self (m : VoxelMap) (c : Coord) (i : Nat) :
    lookupVox (addVoxel m c i) c = some i := by
  by_cases hk : hasKey m c
  · rw [addVoxel, if_pos hk]
    exact lookupVox_map_update_self m c i hk
  · rw [addVoxel, if_neg hk]
    exact lookupVox_append_self m c i (Bool.not_eq_true _ ▸ hk)

theorem lookupVox_addVoxel_ne (m : VoxelMap) (c d : Coord) (i : Nat)
    (hne : d ≠ c) :
    lookupVox (addVoxel m c i) d = lookupVox m d := by
  by_cases hk : hasKey m c
  · rw [addVoxel, if_pos hk]
    exact lookupVox_map_update_ne m c d i hne
  · rw [addVoxel, if_neg hk]
    exact lookupVox_append_ne m c d i hne

theorem writeAll_nil (m : VoxelMap) : writeAll m [] = m := rfl

theorem writeAll_cons (m : VoxelMap) (e : Coord × Nat) (l : List (Coord × Nat)) :
    writeAll m (e :: l) = writeAll (addVoxel m e.1 e.2) l := rfl

theorem writeAll_append (m : VoxelMap) (l1 l2 : List (Coord × Nat)) :
    writeAll m (l1 ++ l2) = writeAll (writeAll m l1) l2 :=
  List.foldl_append _ _ _ _

theorem lookupVox_writeAll_not_mem (l : List (Coord × Nat)) (m : VoxelMap) (c : Coord)
    (h : ∀ e ∈ l, e.1 ≠ c) :
    lookupVox (writeAll m l) c = lookupVox m c := by
  induction l generalizing m with
  | nil => rfl
  | cons e t ih =>
    rw [writeAll_cons, ih _ (fun x hx => h x (List.mem_cons_of_mem _ hx)),
      lookupVox_addVoxel_ne _ _ _ _ (Ne.symm (h e (List.mem_cons_self _ _)))]

theorem lookupVox_writeAll_mem_const (l : List (Coord × Nat)) (v : Nat)
    (hv : ∀ e ∈ l, e.2 = v) (c : Coord) (hc : ∃ e ∈ l, e.1 = c) (m : VoxelMap) :
    lookupVox (writeAll m l) c = some v := by
  induction l generalizing m with
  | nil => simp at hc
  | cons e t ih =>
    rw [writeAll_cons]
    by_cases ht : ∃ x ∈ t, x.1 = c
    · exact ih (fun x hx => hv x (List.mem_cons_of_mem _ hx)) ht _
    · have he : e.1 = c := by
        rcases hc with ⟨a, ha, hac⟩
        rcases List.mem_cons.mp ha with rfl | hat
        · exact hac
        · exact absurd ⟨a, hat, hac⟩ ht
      have hsel : lookupVox (addVoxel m e.1 e.2) c = some e.2 := by
        rw [he]
        exact lookupVox_addVoxel_self m c e.2
      rw [lookupVox_writeAll_not_mem t _ c (fun x hx hxc => ht ⟨x, hx, hxc⟩), hsel,
        hv e (List.mem_cons_self _ _)]

theorem lookupVox_writeAll_char (l : List (Coord × Nat)) (v : Nat)
    (hv : ∀ e ∈ l, e.2 = v) (c : Coord) :
    lookupVox (writeAll ([] : VoxelMap) l) c
      = if ∃ e ∈ l, e.1 = c then some v else none := by
  by_cases hc : ∃ e ∈ l, e.1 = c
  · rw [if_pos hc, lookupVox_writeAll_mem_const l v hv c hc []]
  · rw [if_neg hc, lookupVox_writeAll_not_mem l [] c (fun e he hec => hc ⟨e, he, hec⟩)]
    rfl

/-! ### The write loops as their lists of writes -/

theorem foldl_if_addVoxel {α : Type} (key : α → Coord) (val : α → Nat) (q : α → Bool)
    (l : List α) (m : VoxelMap) :
    l.foldl (fun m a => if q a then addVoxel m (key a) (val a) else m) m
      = writeAll m (l.filterMap (fun a => if q a then some (key a, val a) else none)) := by
  induction l generalizing m with
  | nil => rfl
  | cons a t ih =>
    by_cases hq : q a
    · simp only [List.foldl_cons, List.filterMap_cons, hq, if_pos]
      rw [ih, writeAll_cons]
    · simp only [List.foldl_cons, List.filterMap_cons, hq, if_neg, Bool.false_eq_true,
        not_false_iff]
      exact ih m

theorem foldl_writeAll_flat {α : Type} (f : α → List (Coord × Nat)) (l : List α)
    (m : VoxelMap) :
    l.foldl (fun m a => writeAll m (f a)) m = writeAll m (l.flatMap f) := by
  induction l generalizing m with
  | nil => rfl
  | cons a t ih =>
    rw [List.foldl_cons, List.flatMap_cons, writeAll_append, ih]

theorem frameRow_eq (w h f y : Int) (m : VoxelMap) :
    forRange w (fun m x => if isFrameCell w h f x y then addVoxel m (x, y, 15) 2 else m) m
      = writeAll m ((List.range w.toNat).filterMap (fun (x : Nat) =>
          if isFrameCell w h f (x : Int) y then some (((x : Int), y, (15 : Int)), 2)
          else none)) := by
  unfold forRange
  exact foldl_if_addVoxel (fun (k : Nat) => ((k : Int), y, (15 : Int))) (fun _ => 2)
    (fun (k : Nat) => isFrameCell w h f (k : Int) y) (List.range w.toNat) m

theorem frameStage_eq (w h f : Int) (m : VoxelMap) :
    frameStage w h f m = writeAll m (frameList w h f) := by
  unfold frameStage
  have hrow : (fun (m : VoxelMap) (y : Int) =>
      forRange w (fun m x => if isFrameCell w h f x y then addVoxel m (x, y, 15) 2 else m) m)
      = (fun (m : VoxelMap) (y : Int) =>
      writeAll m ((List.range w.toNat).filterMap (fun (x : Nat) =>
        if isFrameCell w h f (x : Int) y then some (((x : Int), y, (15 : Int)), 2)
        else none))) :=
    funext fun m => funext fun y => frameRow_eq w h f y m
  rw [hrow]
  unfold forRange
  exact foldl_writeAll_flat (fun (k : Nat) =>
    (List.range w.toNat).filterMap (fun (x : Nat) =>
      if isFrameCell w h f (x : Int) (k : Int) then
        some (((x : Int), (k : Int), (15 : Int)), 2)
      else none)) (List.range h.toNat) m

theorem backplateRow_eq (w h y zc : Int) (m : VoxelMap) :
    forRange w (fun m x => if isInside w h x y then addVoxel m (x, y, zc) 1 else m) m
      = writeAll m ((List.range w.toNat).filterMap (fun (x : Nat) =>
          if isInside w h (x : Int) y then some (((x : Int), y, zc), 1)
          else none)) := by
  unfold forRange
  exact foldl_if_addVoxel (fun (k : Nat) => ((k : Int), y, zc)) (fun _ => 1)
    (fun (k : Nat) => isInside w h (k : Int) y) (List.range w.toNat) m

theorem backplateSlice_eq (w h zc : Int) (m : VoxelMap) :
    forRange h (fun m y =>
      forRange w (fun m x => if isInside w h x y then addVoxel m (x, y, zc) 1 else m) m) m
      = writeAll m ((List.range h.toNat).flatMap (fun (y : Nat) =>
          (List.range w.toNat).filterMap (fun (x : Nat) =>
            if isInside w h (x : Int) (y : Int) then some (((x : Int), (y : Int), zc), 1)
            else none))) := by
  have hrow : (fun (m : VoxelMap) (y : Int) =>
      forRange w (fun m x => if isInside w h x y then addVoxel m (x, y, zc) 1 else m) m)
      = (fun (m : VoxelMap) (y : Int) =>
      writeAll m ((List.range w.toNat).filterMap (fun (x : Nat) =>
        if isInside w h (x : Int) y then some (((x : Int), y, zc), 1)
        else none))) :=
    funext fun m => funext fun y => backplateRow_eq w h y zc m
  rw [hrow]
  unfold forRange
  exact foldl_writeAll_flat (fun (k : Nat) =>
    (List.range w.toNat).filterMap (fun (x : Nat) =>
      if isInside w h (x : Int) (k : Int) then some (((x : Int), (k : Int), zc), 1)
      else none)) (List.range h.toNat) m

theorem backplateStage_eq (w h t : Int) (m : VoxelMap) :
    backplateStage w h t m = writeAll m (backplateList w h t) := by
  show forRange t (fun m z =>
    forRange h (fun m y =>
      forRange w (fun m x =>
        if isInside w h x y then addVoxel m (x, y, 16 + z) 1 else m) m) m) m
    = writeAll m (backplateList w h t)
  have hslice : (fun (m : VoxelMap) (z : Int) =>
      forRange h (fun m y =>
        forRange w (fun m x => if isInside w h x y then addVoxel m (x, y, 16 + z) 1 else m) m) m)
      = (fun (m : VoxelMap) (z : Int) =>
      writeAll m ((List.range h.toNat).flatMap (fun (y : Nat) =>
        (List.range w.toNat).filterMap (fun (x : Nat) =>
          if isInside w h (x : Int) (y : Int) then
            some (((x : Int), (y : Int), 16 + z), 1)
          else none)))) :=
    funext fun m => funext fun z => backplateSlice_eq w h (16 + z) m
  rw [hslice]
  unfold forRange
  exact foldl_writeAll_flat (fun (k : Nat) =>
    (List.range h.toNat).flatMap (fun (y : Nat) =>
      (List.range w.toNat).filterMap (fun (x : Nat) =>
        if isInside w h (x : Int) (y : Int) then
          some (((x : Int), (y : Int), 16 + (k : Int)), 1)
        else none))) (List.range t.toNat) m

theorem mem_frameList (w h f : Int) (e : Coord × Nat) :
    e ∈ frameList w h f ↔
      ∃ x y : Int, 0 ≤ x ∧ x < w ∧ 0 ≤ y ∧ y < h ∧
        isFrameCell w h f x y = true ∧ e = ((x, y, 15), 2) := by
  unfold frameList
  simp only [List.mem_flatMap, List.mem_filterMap, List.mem_range]
  constructor
  · rintro ⟨yN, hy, xN, hx, hsome⟩
    split at hsome
    case isTrue hcell =>
      refine ⟨(xN : Int), (yN : Int), by omega, by omega, by omega, by omega, hcell, ?_⟩
      exact (Option.some.injEq _ _ ▸ hsome).symm
    case isFalse => exact absurd hsome (by simp)
  · rintro ⟨x, y, hx0, hxw, hy0, hyh, hcell, rfl⟩
    refine ⟨y.toNat, by omega, x.toNat, by omega, ?_⟩
    have hx2 : ((x.toNat : Nat) : Int) = x := Int.toNat_of_nonneg hx0
    have hy2 : ((y.toNat : Nat) : Int) = y := Int.toNat_of_nonneg hy0
    rw [hx2, hy2, if_pos hcell]

theorem mem_backplateList (w h t : Int) (e : Coord × Nat) :
    e ∈ backplateList w h t ↔
      ∃ x y z : Int, 0 ≤ x ∧ x < w ∧ 0 ≤ y ∧ y < h ∧ 0 ≤ z ∧ z < t ∧
        isInside w h x y = true ∧ e = ((x, y, 16 + z), 1) := by
  unfold backplateList
  simp only [List.mem_flatMap, List.mem_filterMap, List.mem_range]
  constructor
  · rintro ⟨zN, hz, yN, hy, xN, hx, hsome⟩
    split at hsome
    case isTrue hcell =>
      refine ⟨(xN : Int), (yN : Int), (zN : Int), by omega, by omega, by omega, by omega,
        by omega, by omega, hcell, ?_⟩
      exact (Option.some.injEq _ _ ▸ hsome).symm
    case isFalse => exact absurd hsome (by simp)
  · rintro ⟨x, y, z, hx0, hxw, hy0, hyh, hz0, hzt, hcell, rfl⟩
    refine ⟨z.toNat, by omega, y.toNat, by omega, x.toNat, by omega, ?_⟩
    have hx2 : ((x.toNat : Nat) : Int) = x := Int.toNat_of_nonneg hx0
    have hy2 : ((y.toNat : Nat) : Int) = y := Int.toNat_of_nonneg hy0
    have hz2 : ((z.toNat : Nat) : Int) = z := Int.toNat_of_nonneg hz0
    rw [hx2, hy2, hz2, if_pos hcell]

theorem frameList_snd (w h f : Int) : ∀ e ∈ frameList w h f, e.2 = 2 := by
  intro e he
  rcases (mem_frameList w h f e).mp he with ⟨x, y, -, -, -, -, -, rfl⟩
  rfl

theorem backplateList_snd (w h t : Int) : ∀ e ∈ backplateList w h t, e.2 = 1 := by
  intro e he
  rcases (mem_backplateList w h t e).mp he with ⟨x, y, z, -, -, -, -, -, -, -, rfl⟩
  rfl

/-! ### Distinctness of the stored coordinates -/

theorem hasKey_eq_false_iff (m : VoxelMap) (c : Coord) :
    hasKey m c = false ↔ c ∉ m.map Prod.fst := by
  rw [← Bool.not_eq_true]
  unfold hasKey
  simp [List.any_eq_true, List.mem_map]

theorem nodupKeys_addVoxel (m : VoxelMap) (c : Coord) (i : Nat)
    (h : NodupKeys m) : NodupKeys (addVoxel m c i) := by
  unfold addVoxel
  split
  case isTrue hk =>
    have hkeys : (m.map (fun e => if e.1 = c then (c, i) else e)).map Prod.fst
        = m.map Prod.fst := by
      rw [List.map_map]
      apply List.map_congr_left
      intro a _
      by_cases hac : a.1 = c
      · simp [Function.comp, hac]
      · simp [Function.comp, hac]
    unfold NodupKeys
    rw [hkeys]
    exact h
  case isFalse hk =>
    unfold NodupKeys
    rw [List.map_append]
    simp only [List.map_cons, List.map_nil]
    rw [List.nodup_append]
    refine ⟨h, List.nodup_singleton _, ?_⟩
    rw [List.disjoint_singleton]
    exact (hasKey_eq_false_iff m c).mp (Bool.not_eq_true _ ▸ hk)

theorem foldl_preserve {α β : Type} (P : β → Prop) (g : β → α → β)
    (hg : ∀ b a, P b → P (g b a)) :
    ∀ (l : List α) (b : β), P b → P (l.foldl g b) := by
  intro l
  induction l with
  | nil => intro b hb; exact hb
  | cons a t ih => intro b hb; exact ih _ (hg b a hb)

theorem nodupKeys_forRange (n : Int) (f : VoxelMap → Int → VoxelMap)
    (hf : ∀ m k, NodupKeys m → NodupKeys (f m k)) (m : VoxelMap)
    (h : NodupKeys m) : NodupKeys (forRange n f m) := by
  unfold forRange
  exact foldl_preserve NodupKeys _ (fun b (a : Nat) hb => hf b (a : Int) hb)
    (List.range n.toNat) m h

theorem nodupKeys_paintItem (p : SignToVoxInput) (m : VoxelMap) (item : ContentItem)
    (cx : Int) (h : NodupKeys m) : NodupKeys (paintItem p m item cx) := by
  unfold paintItem
  apply nodupKeys_forRange
  · intro m1 y h1
    apply nodupKeys_forRange
    · intro m2 x h2
      split
      · exact nodupKeys_addVoxel _ _ _ h2
      · exact h2
    · exact h1
  · exact h

theorem nodupKeys_placeItems (p : SignToVoxInput) (items : List ContentItem)
    (x0 : Int) (m : VoxelMap) (h : NodupKeys m) :
    NodupKeys (placeItems p items x0 m).1 := by
  unfold placeItems
  have := foldl_preserve (fun acc : VoxelMap × Int => NodupKeys acc.1)
    (fun acc item => (paintItem p acc.1 item acc.2, acc.2 + effectiveWidth p item + spacing))
    (fun b a hb => nodupKeys_paintItem p b.1 a b.2 hb) items (m, x0) h
  exact this

theorem nodupKeys_shapeStage (p : SignToVoxInput) : NodupKeys (shapeStage p) := by
  have hnil : NodupKeys ([] : VoxelMap) := List.nodup_nil
  unfold shapeStage
  split
  · unfold frameStage
    apply nodupKeys_forRange
    · intro m1 y h1
      apply nodupKeys_forRange
      · intro m2 x h2
        split
        · exact nodupKeys_addVoxel _ _ _ h2
        · exact h2
      · exact h1
    · exact hnil
  · split
    · unfold backplateStage
      apply nodupKeys_forRange
      · intro m1 z h1
        apply nodupKeys_forRange
        · intro m2 y h2
          apply nodupKeys_forRange
          · intro m3 x h3
            split
            · exact nodupKeys_addVoxel _ _ _ h3
            · exact h3
          · exact h2
        · exact h1
      · exact hnil
    · exact hnil

theorem nodupKeys_finalGrid (p : SignToVoxInput) (rz : Rasterizer) :
    NodupKeys (finalGrid p rz) := by
  unfold finalGrid gridAfterContent
  exact nodupKeys_addVoxel _ _ _
    (nodupKeys_placeItems p _ _ _ (nodupKeys_shapeStage p))

theorem addVoxel_ne_nil (m : VoxelMap) (c : Coord) (i : Nat) :
    addVoxel m c i ≠ [] := by
  unfold addVoxel
  split
  case isTrue hk =>
    intro hcon
    cases m with
    | nil => simp [hasKey] at hk
    | cons e t => simp at hcon
  case isFalse hk =>
    intro hcon
    cases m <;> simp at hcon

/-! ### Cursor arithmetic of the placement loop -/

theorem foldl_add_eq {α : Type} (f : α → Int) :
    ∀ (l : List α) (a : Int), l.foldl (fun s x => s + f x) a = a + (l.map f).sum := by
  intro l
  induction l with
  | nil => intro a; simp
  | cons x t ih =>
    intro a
    rw [List.foldl_cons, ih, List.map_cons, List.sum_cons]
    ring

theorem placeItems_cursor (p : SignToVoxInput) :
    ∀ (items : List ContentItem) (x0 : Int) (m : VoxelMap),
      (placeItems p items x0 m).2
        = x0 + (items.map (fun it => effectiveWidth p it + spacing)).sum := by
  intro items
  induction items with
  | nil => intro x0 m; simp [placeItems]
  | cons it t ih =>
    intro x0 m
    have hstep : placeItems p (it :: t) x0 m
        = placeItems p t (x0 + effectiveWidth p it + spacing) (paintItem p m it x0) := rfl
    rw [hstep, ih, List.map_cons, List.sum_cons]
    ring

/-! ### String facts for the text-presence guard -/

theorem takeWhileAux_zero (s : String) (q : Char → Bool) :
    Substring.takeWhileAux s ⟨0⟩ q ⟨0⟩ = ⟨0⟩ := by
  rw [Substring.takeWhileAux]
  simp

theorem takeRightWhileAux_zero (s : String) (q : Char → Bool) :
    Substring.takeRightWhileAux s ⟨0⟩ q ⟨0⟩ = ⟨0⟩ := by
  rw [Substring.takeRightWhileAux]
  simp

theorem trim_empty : "".trim = "" := by
  show ("".toSubstring.trim).toString = ""
  have h1 : "".toSubstring = ⟨"", ⟨0⟩, ⟨0⟩⟩ := rfl
  rw [h1]
  show Substring.toString _ = ""
  rw [Substring.trim]
  simp only [takeWhileAux_zero, takeRightWhileAux_zero]
  rfl

theorem length_pos_of_ne_empty (s : String) (h : s ≠ "") : 0 < s.length := by
  cases s with
  | mk data =>
    cases data with
    | nil => exact absurd rfl h
    | cons a t => simp [String.length]

theorem textPresent_iff (p : SignToVoxInput) : textPresent p ↔ p.text.trim ≠ "" := by
  unfold textPresent
  constructor
  · rintro ⟨-, hlen⟩ heq
    rw [heq] at hlen
    exact absurd hlen (by decide)
  · intro hne
    have htext : p.text ≠ "" := by
      intro h0
      rw [h0, trim_empty] at hne
      exact hne rfl
    exact ⟨htext, length_pos_of_ne_empty _ hne⟩

/-! ### Shape of the content-item list -/

theorem hasIcon_iff (p : SignToVoxInput) :
    hasIcon p = true ↔
      (∃ ic, p.icon = some ic ∧ 0 < ic.pixels.length) ∧ p.signWithIcon = true := by
  unfold hasIcon
  cases hic : p.icon with
  | none => simp
  | some ic => simp [Bool.and_eq_true]

theorem contentItems_map_type (p : SignToVoxInput) (rz : Rasterizer) :
    (contentItems p rz).map (fun it => it.type)
      = (if p.signType = SignType.hanging ∧ p.hangingIconPosition = IconPosition.right then
          ((if hasIcon p then [ItemType.icon] else []) ++
            (if textPresent p then [ItemType.text] else [])).reverse
        else
          (if hasIcon p then [ItemType.icon] else []) ++
            (if textPresent p then [ItemType.text] else [])) := by
  unfold contentItems iconItemList textItemList
  by_cases hi : hasIcon p
  · have hic : ∃ ic, p.icon = some ic := by
      rcases (hasIcon_iff p).mp hi with ⟨⟨ic, hic, -⟩, -⟩
      exact ⟨ic, hic⟩
    rcases hic with ⟨ic, hic⟩
    rw [hic]
    by_cases ht : textPresent p <;>
      by_cases hr : p.signType = SignType.hanging ∧ p.hangingIconPosition = IconPosition.right <;>
        simp [hi, ht, hr]
  · by_cases ht : textPresent p <;>
      by_cases hr : p.signType = SignType.hanging ∧ p.hangingIconPosition = IconPosition.right <;>
        simp [hi, ht, hr]

/-! ### The boolean identity behind the frame cell test -/

theorem isFrameCell_eq (w h f x y : Int) :
    isFrameCell w h f x y
      = (edgeCell w h f x y && !codeCornerCutout w h (f * 2) x y) := by
  unfold isFrameCell edgeCell codeCornerCutout
  cases h1 : checkCorner x y (f * 2) (f * 2) (f * 2) <;>
    cases h2 : checkCorner x y (w - 1 - f * 2) (f * 2) (f * 2) <;>
      cases h3 : checkCorner x y (f * 2) (h - 1 - f * 2) (f * 2) <;>
        cases h4 : checkCorner x y (w - 1 - f * 2) (h - 1 - f * 2) (f * 2) <;>
          simp [h1, h2, h3, h4]

set_option maxRecDepth 200000

/-! ### The claims -/

/-- C1: for every valid input, after all shape and content writes the
pipeline performs exactly one final write of palette index 2 at coordinate
(0,0,0) — the final grid is literally `addVoxel` of the pre-anchor grid at
(0,0,0) with index 2, with nothing written after it — and the final grid
therefore maps (0,0,0) to palette index 2. -/
theorem claim_c1 (p : SignToVoxInput) (rz : Rasterizer) :
    finalGrid p rz = addVoxel (gridAfterContent p rz) (0, 0, 0) 2 ∧
    lookupVox (finalGrid p rz) (0, 0, 0) = some 2 :=
  ⟨rfl, lookupVox_addVoxel_self _ _ _⟩

/-- C2: the reported `totalVoxels` equals the number of distinct
coordinates of the final grid minus 1 (the grid's keys are pairwise
distinct, so the deduplicated key count is the entry count), and the voxel
count stored in the emitted XYZI record equals `totalVoxels + 1`. -/
theorem claim_c2 (p : SignToVoxInput) (rz : Rasterizer) :
    NodupKeys (finalGrid p rz) ∧
    (generateSignToVoxFlow p rz).totalVoxels
      = (((finalGrid p rz).map Prod.fst).dedup.length : Int) - 1 ∧
    ((voxObject p rz).xyzi.numVoxels : Int)
      = (generateSignToVoxFlow p rz).totalVoxels + 1 := by
  refine ⟨nodupKeys_finalGrid p rz, ?_, ?_⟩
  · have hd : ((finalGrid p rz).map Prod.fst).dedup = (finalGrid p rz).map Prod.fst :=
      List.dedup_eq_self.mpr (nodupKeys_finalGrid p rz)
    have hlen : (xyziValues p rz).length = ((finalGrid p rz).map Prod.fst).length := by
      simp [xyziValues]
    show ((xyziValues p rz).length : Int) - 1
      = (((finalGrid p rz).map Prod.fst).dedup.length : Int) - 1
    rw [hd, hlen]
  · show (((xyziValues p rz).length : Nat) : Int)
      = ((xyziValues p rz).length : Int) - 1 + 1
    omega

/-- C3 (amended): for a framed standard sign, a cell is marked as frame iff
it lies within `frameWidth` of an edge and is not carved by any of the four
`checkCorner` tests; the carve squares are the cells strictly within
`cornerRadius` of each corner's rounding center in both axes (side
`2*cornerRadius`, not side `cornerRadius` as the specification words it);
consequently the frame pass leaves no voxel at plane 15 at any carved
cell. -/
theorem claim_c3_amended (p : SignToVoxInput) (hstd : p.signType = SignType.standard)
    (hfr : p.frame = true) (x y : Int) :
    (isFrameCell (signWidth p) (signHeight p) p.frameWidth x y
      = (edgeCell (signWidth p) (signHeight p) p.frameWidth x y &&
         !codeCornerCutout (signWidth p) (signHeight p) (p.frameWidth * 2) x y)) ∧
    (codeCornerCutout (signWidth p) (signHeight p) (p.frameWidth * 2) x y = true →
      lookupVox (shapeStage p) (x, y, 15) = none) := by
  refine ⟨isFrameCell_eq _ _ _ x y, ?_⟩
  intro hcut
  have hshape : shapeStage p
      = frameStage (signWidth p) (signHeight p) p.frameWidth [] := by
    unfold shapeStage
    rw [if_pos ⟨hstd, hfr⟩]
  have hnm : ∀ e ∈ frameList (signWidth p) (signHeight p) p.frameWidth,
      e.1 ≠ (x, y, (15 : Int)) := by
    intro e he hee
    rcases (mem_frameList _ _ _ e).mp he with ⟨x2, y2, hx0, hxw, hy0, hyh, hcell, rfl⟩
    obtain ⟨hx, hy⟩ : x2 = x ∧ y2 = y := by simpa [Prod.ext_iff] using hee
    subst hx
    subst hy
    rw [isFrameCell_eq, hcut] at hcell
    simp at hcell
  rw [hshape, frameStage_eq, lookupVox_writeAll_not_mem _ _ _ hnm]
  rfl

/-- C3 witness: on the 16×16 frame-width-2 input, cell (7,1) is carved by
the top-left `checkCorner` test, and the frame pass holds no voxel
there. -/
theorem claim_c3_witness :
    stdInput.signType = SignType.standard ∧ stdInput.frame = true ∧
    codeCornerCutout (signWidth stdInput) (signHeight stdInput)
      (stdInput.frameWidth * 2) 7 1 = true ∧
    lookupVox (shapeStage stdInput) (7, 1, 15) = none :=
  ⟨rfl, rfl, by decide, (claim_c3_amended stdInput rfl rfl 7 1).2 (by decide)⟩

/-- C3 counterexample: on the valid 16×16 frame-width-2 input, cell (0,0)
satisfies the corner-cutout predicate exactly as the specification words it
(it lies in the side-`cornerRadius` bounding square at the top-left corner
and its distance from the rounding center exceeds `cornerRadius`), yet the
frame pass writes palette index 2 at (0,0,15): the claimed carve law is
false as stated. -/
theorem claim_c3_counterexample :
    stdInput.signType = SignType.standard ∧ stdInput.frame = true ∧
    1 ≤ stdInput.frameWidth ∧ 16 ≤ stdInput.width ∧ 16 ≤ stdInput.height ∧
    specCornerCutout (signWidth stdInput) (signHeight stdInput)
      (stdInput.frameWidth * 2) 0 0 ∧
    lookupVox (shapeStage stdInput) (0, 0, 15) = some 2 :=
  ⟨rfl, rfl, by decide, by decide, by decide, by decide, by decide⟩

/-- C4: with at least one content item, every item's effective width is its
bitmap width except a hanging sign's text item with an icon present, where
it is the bitmap width minus (icon width + 4); the total content width is
the sum of effective widths plus 4 when there is more than one item; the
starting cursor is `pad + floor((availableWidth - totalContentWidth)/2)`;
and after each placed item the cursor has advanced by that item's effective
width + 4 (stated for every prefix of the item list). -/
theorem claim_c4 (p : SignToVoxInput) (rz : Rasterizer)
    (hne : contentItems p rz ≠ []) :
    (∀ it ∈ contentItems p rz, effectiveWidth p it =
      if it.type = ItemType.text ∧ hasIcon p = true ∧ p.signType = SignType.hanging
      then it.width - (iconWidthOf p + spacing) else it.width) ∧
    totalContentWidth p (contentItems p rz)
      = ((contentItems p rz).map (effectiveWidth p)).sum
        + (if 1 < (contentItems p rz).length then spacing else 0) ∧
    startX p (contentItems p rz)
      = pad p + Int.fdiv (availableWidth p - totalContentWidth p (contentItems p rz)) 2 ∧
    ∀ (k : Nat) (m : VoxelMap),
      (placeItems p ((contentItems p rz).take k) (startX p (contentItems p rz)) m).2
        = startX p (contentItems p rz)
          + (((contentItems p rz).take k).map
              (fun it => effectiveWidth p it + spacing)).sum := by
  refine ⟨?_, ?_, rfl, ?_⟩
  · intro it hit
    unfold effectiveWidth
    by_cases h1 : it.type = ItemType.text <;>
      by_cases h2 : hasIcon p = true ∧ p.signType = SignType.hanging <;>
        simp [h1, h2] <;> ring
  · unfold totalContentWidth
    rw [foldl_add_eq (effectiveWidth p) (contentItems p rz) 0, zero_add]
  · intro k m
    exact placeItems_cursor p ((contentItems p rz).take k) _ m

/-- C4 witness: the icon-only input has a nonempty item list, and placing
its one-item prefix advances the cursor by the item's effective width plus
the spacing. -/
theorem claim_c4_witness :
    contentItems iconInput rz0 ≠ [] ∧
    (placeItems iconInput ((contentItems iconInput rz0).take 1)
        (startX iconInput (contentItems iconInput rz0)) []).2
      = startX iconInput (contentItems iconInput rz0)
        + (((contentItems iconInput rz0).take 1).map
            (fun it => effectiveWidth iconInput it + spacing)).sum :=
  ⟨by decide, (claim_c4 iconInput rz0 (by decide)).2.2.2 1 []⟩

/-- C5: for a hanging sign, the shape pass stores palette index 1 at
exactly the coordinates whose depth lies in `[16, 16 + thickness)` and
whose (x,y) lies in the width×16 plane and satisfies the rounded-rectangle
`isInside` test (the same cross-section in every slice), and stores nothing
anywhere else. -/
theorem claim_c5 (p : SignToVoxInput) (hp : p.signType = SignType.hanging)
    (x y z : Int) :
    lookupVox (shapeStage p) (x, y, z)
      = if 16 ≤ z ∧ z < 16 + p.hangingSignThickness ∧
           0 ≤ x ∧ x < signWidth p ∧ 0 ≤ y ∧ y < 16 ∧
           isInside (signWidth p) 16 x y = true
        then some 1 else none := by
  have hns : ¬(p.signType = SignType.standard ∧ p.frame = true) := by
    rintro ⟨hstd, -⟩
    rw [hp] at hstd
    exact absurd hstd (by decide)
  have hshape : shapeStage p
      = backplateStage (signWidth p) (signHeight p) p.hangingSignThickness [] := by
    unfold shapeStage
    rw [if_neg hns, if_pos hp]
  have hh : signHeight p = 16 := by simp [signHeight, hp]
  rw [hshape, hh, backplateStage_eq,
    lookupVox_writeAll_char _ 1 (backplateList_snd _ _ _) _]
  have hiff : (∃ e ∈ backplateList (signWidth p) 16 p.hangingSignThickness,
      e.1 = (x, y, z))
      ↔ (16 ≤ z ∧ z < 16 + p.hangingSignThickness ∧ 0 ≤ x ∧ x < signWidth p ∧
         0 ≤ y ∧ y < 16 ∧ isInside (signWidth p) 16 x y = true) := by
    constructor
    · rintro ⟨e, he, hkey⟩
      rcases (mem_backplateList _ _ _ e).mp he with
        ⟨x2, y2, z2, hx0, hxw, hy0, hyh, hz0, hzt, hcell, rfl⟩
      obtain ⟨hx, hy, hz⟩ : x2 = x ∧ y2 = y ∧ 16 + z2 = z := by
        simpa [Prod.ext_iff] using hkey
      subst hx
      subst hy
      exact ⟨by omega, by omega, hx0, hxw, hy0, hyh, hcell⟩
    · rintro ⟨hz1, hz2, hx0, hxw, hy0, hyh, hcell⟩
      refine ⟨((x, y, 16 + (z - 16)), 1), ?_, ?_⟩
      · exact (mem_backplateList _ _ _ _).mpr
          ⟨x, y, z - 16, hx0, hxw, hy0, hyh, by omega, by omega, hcell, rfl⟩
      · show (x, y, 16 + (z - 16)) = (x, y, z)
        have hz3 : 16 + (z - 16) = z := by omega
        rw [hz3]
  rw [if_congr hiff rfl rfl]

/-- C5 witness: the concrete hanging input at coordinate (5,5,16). -/
theorem claim_c5_witness :
    hangInput.signType = SignType.hanging ∧
    lookupVox (shapeStage hangInput) (5, 5, 16)
      = if (16 : Int) ≤ 16 ∧ (16 : Int) < 16 + hangInput.hangingSignThickness ∧
           (0 : Int) ≤ 5 ∧ (5 : Int) < signWidth hangInput ∧ (0 : Int) ≤ 5 ∧
           (5 : Int) < 16 ∧ isInside (signWidth hangInput) 16 5 5 = true
        then some 1 else none :=
  ⟨rfl, claim_c5 hangInput rfl 5 5 16⟩

/-- C6: the grid's overwrite law — writing the same coordinate twice keeps
only the later value, a single write is always visible at its coordinate,
and a write leaves every other coordinate untouched, so the shape-then-
content write order determines the final index at an overlap. -/
theorem claim_c6 (m : VoxelMap) (c : Coord) (i j : Nat) :
    lookupVox (addVoxel (addVoxel m c i) c j) c = some j ∧
    lookupVox (addVoxel m c i) c = some i ∧
    ∀ d : Coord, d ≠ c → lookupVox (addVoxel m c i) d = lookupVox m d :=
  ⟨lookupVox_addVoxel_self _ _ _, lookupVox_addVoxel_self _ _ _,
   fun d hd => lookupVox_addVoxel_ne _ _ _ _ hd⟩

/-- C6 witness: concrete double write at the origin and an untouched
neighbor. -/
theorem claim_c6_witness :
    lookupVox (addVoxel (addVoxel [] ((0 : Int), (0 : Int), (0 : Int)) 1)
      ((0 : Int), (0 : Int), (0 : Int)) 2) ((0 : Int), (0 : Int), (0 : Int)) = some 2 ∧
    lookupVox (addVoxel ([] : VoxelMap) ((0 : Int), (0 : Int), (0 : Int)) 1)
      ((1 : Int), (0 : Int), (0 : Int)) = lookupVox [] ((1 : Int), (0 : Int), (0 : Int)) :=
  ⟨(claim_c6 [] ((0 : Int), (0 : Int), (0 : Int)) 1 2).1,
   (claim_c6 [] ((0 : Int), (0 : Int), (0 : Int)) 1 2).2.2
     ((1 : Int), (0 : Int), (0 : Int)) (by decide)⟩

/-- C7: the encoder swaps the y and z components of every grid entry
(keeping x and the palette index) — stated both as the list-level map and
as a per-record membership equivalence — and the SIZE triple is emitted as
(logical width, logical depth, logical height). -/
theorem claim_c7 (p : SignToVoxInput) (rz : Rasterizer) :
    (voxObject p rz).size = ⟨signWidth p, modelDepth, signHeight p⟩ ∧
    (voxObject p rz).xyzi.values
      = (xyziValues p rz).map (fun v => ⟨v.x, v.z, v.y, v.i⟩) ∧
    ∀ v : XyziValue,
      v ∈ xyziValues p rz ↔
        (⟨v.x, v.z, v.y, v.i⟩ : XyziValue) ∈ (voxObject p rz).xyzi.values := by
  refine ⟨rfl, rfl, fun v => ?_⟩
  show v ∈ xyziValues p rz ↔
    (⟨v.x, v.z, v.y, v.i⟩ : XyziValue)
      ∈ (xyziValues p rz).map (fun u => (⟨u.x, u.z, u.y, u.i⟩ : XyziValue))
  constructor
  · intro hv
    exact List.mem_map_of_mem _ hv
  · intro hv
    rcases List.mem_map.mp hv with ⟨u, hu, hequ⟩
    have huv : u = v := by
      cases u with
      | mk ux uy uz ui =>
        cases v with
        | mk vx vy vz vi =>
          simp only [XyziValue.mk.injEq] at hequ
          obtain ⟨e1, e2, e3, e4⟩ := hequ
          simp only [XyziValue.mk.injEq]
          exact ⟨e1, e3, e2, e4⟩
    rwa [huv] at hu

/-- C7 witness: the membership equivalence at a concrete record on a
concrete input. -/
theorem claim_c7_witness :
    (⟨0, 0, 0, 2⟩ : XyziValue) ∈ xyziValues stdInput rz0 ↔
      (⟨0, 0, 0, 2⟩ : XyziValue) ∈ (voxObject stdInput rz0).xyzi.values :=
  (claim_c7 stdInput rz0).2.2 ⟨0, 0, 0, 2⟩

/-- C9: the reported depth is the constant 32 for every input, the
container-axis size triple is (signWidth, 32, signHeight), a hanging sign
has logical height 16 (the `height` field is ignored) and width
`hangingWidth`, and a standard sign takes both from its `width`/`height`
fields. -/
theorem claim_c9 (p : SignToVoxInput) (rz : Rasterizer) :
    (generateSignToVoxFlow p rz).depth = 32 ∧
    (generateSignToVoxFlow p rz).voxSize = ⟨signWidth p, 32, signHeight p⟩ ∧
    (p.signType = SignType.hanging →
      signHeight p = 16 ∧ signWidth p = p.hangingWidth) ∧
    (p.signType = SignType.standard →
      signHeight p = p.height ∧ signWidth p = p.width) := by
  refine ⟨rfl, rfl, ?_, ?_⟩
  · intro hp
    constructor <;> simp [signHeight, signWidth, hp]
  · intro hp
    constructor <;> simp [signHeight, signWidth, hp]

/-- C9 witness: both discriminant cases at concrete inputs. -/
theorem claim_c9_witness :
    (signHeight hangInput = 16 ∧ signWidth hangInput = hangInput.hangingWidth) ∧
    (signHeight stdInput = stdInput.height ∧ signWidth stdInput = stdInput.width) :=
  ⟨(claim_c9 hangInput rz0).2.2.1 rfl, (claim_c9 stdInput rz0).2.2.2 rfl⟩

/-- C10: for a hanging sign the vertical offsets `signIconOffsetY` and
`textOffsetY` are forced to 0 and cannot affect the output; for a standard
sign the horizontal offsets `hangingSignIconOffsetX` and
`hangingSignTextOffsetX` are forced to 0 and cannot affect the output; and
`signIconScale` never affects the output for any sign type. -/
theorem claim_c10 :
    (∀ (p : SignToVoxInput) (a b : Int) (rz : Rasterizer),
      p.signType = SignType.hanging →
      generateSignToVoxFlow { p with signIconOffsetY := a, textOffsetY := b } rz
        = generateSignToVoxFlow p rz) ∧
    (∀ (p : SignToVoxInput) (a b : Int) (rz : Rasterizer),
      p.signType = SignType.standard →
      generateSignToVoxFlow
          { p with hangingSignIconOffsetX := a, hangingSignTextOffsetX := b } rz
        = generateSignToVoxFlow p rz) ∧
    (∀ (p : SignToVoxInput) (a : Int) (rz : Rasterizer),
      generateSignToVoxFlow { p with signIconScale := a } rz
        = generateSignToVoxFlow p rz) := by
  refine ⟨?_, ?_, ?_⟩
  · intro p a b rz hp
    cases p
    subst hp
    rfl
  · intro p a b rz hp
    cases p
    subst hp
    rfl
  · intro p a rz
    cases p
    rfl

/-- C10 witness: the three equalities at concrete inputs. -/
theorem claim_c10_witness :
    generateSignToVoxFlow { hangInput with signIconOffsetY := 5, textOffsetY := 7 } rz0
      = generateSignToVoxFlow hangInput rz0 ∧
    generateSignToVoxFlow
        { stdInput with hangingSignIconOffsetX := 3, hangingSignTextOffsetX := 4 } rz0
      = generateSignToVoxFlow stdInput rz0 ∧
    generateSignToVoxFlow { stdInput with signIconScale := 55 } rz0
      = generateSignToVoxFlow stdInput rz0 :=
  ⟨claim_c10.1 hangInput 5 7 rz0 rfl, claim_c10.2.1 stdInput 3 4 rz0 rfl,
   claim_c10.2.2 stdInput 55 rz0⟩

/-- C8: an icon item exists iff an icon bitmap was supplied with a nonempty
pixel array and the with-icon flag is set; a text item exists iff the text
is non-blank after trimming; and the item order is icon before text except
for a hanging sign with icon position right, where it is reversed. -/
theorem claim_c8 (p : SignToVoxInput) (rz : Rasterizer) :
    ((∃ it ∈ contentItems p rz, it.type = ItemType.icon) ↔
      ((∃ ic, p.icon = some ic ∧ 0 < ic.pixels.length) ∧ p.signWithIcon = true)) ∧
    ((∃ it ∈ contentItems p rz, it.type = ItemType.text) ↔ p.text.trim ≠ "") ∧
    ((contentItems p rz).map (fun it => it.type)
      = (if p.signType = SignType.hanging ∧
            p.hangingIconPosition = IconPosition.right then
          ((if hasIcon p then [ItemType.icon] else []) ++
            (if textPresent p then [ItemType.text] else [])).reverse
        else
          (if hasIcon p then [ItemType.icon] else []) ++
            (if textPresent p then [ItemType.text] else []))) := by
  have hm := contentItems_map_type p rz
  refine ⟨?_, ?_, hm⟩
  · rw [← hasIcon_iff]
    have hmem : (∃ it ∈ contentItems p rz, it.type = ItemType.icon)
        ↔ ItemType.icon ∈ (contentItems p rz).map (fun it => it.type) := by
      simp [List.mem_map, eq_comm]
    rw [hmem, hm]
    split_ifs <;> simp_all
  · rw [← textPresent_iff]
    have hmem : (∃ it ∈ contentItems p rz, it.type = ItemType.text)
        ↔ ItemType.text ∈ (contentItems p rz).map (fun it => it.type) := by
      simp [List.mem_map, eq_comm]
    rw [hmem, hm]
    split_ifs <;> simp_all

/-- C8 witness: the icon-existence equivalence at the concrete icon-only
input. -/
theorem claim_c8_witness :
    (∃ it ∈ contentItems iconInput rz0, it.type = ItemType.icon) ↔
      ((∃ ic, iconInput.icon = some ic ∧ 0 < ic.pixels.length) ∧
        iconInput.signWithIcon = true) :=
  (claim_c8 iconInput rz0).1

end Chisel
